import Mathlib

/-!
Verification of the static-site generator in `scripts/main.py`.

The script reads markdown files with a five-line `Key: value` header,
validates the header against a fixed five-field schema, renders each
document through a named template, and writes an index sorted by publish
date.  We model the script as pure functions over an explicit list of
source documents and an explicit list of available template names.
External-library behaviour (markdown conversion, jinja2 rendering) is
kept abstract: rendered output is recorded as the pair of template name
and context handed to the template engine, and the markdown converter is
a function parameter of the pipeline.
-/

set_option autoImplicit false

namespace SiteGen

/-- Header values after coercion: `str` passthrough, `dateutil.parser.parse`
(dates, encoded as a natural number), and `int`. -/
inductive HVal where
  | s (v : String)
  | date (v : Nat)
  | i (v : Int)
deriving DecidableEq, Repr

/-- `HEADER_LINES` from `main.py`: the number of leading header lines. -/
def HEADER_LINES : Nat := 5

/-- The keys of the `HEADERS` schema dict from `main.py`, in insertion order. -/
def HEADERS_keys : List String :=
  ["Title", "Template", "MetaDescription", "DatePublished", "IsDraft"]

/-- Python `str.isspace` on the ASCII whitespace characters recognised by
`str.strip()` with no argument. -/
def isPySpace (c : Char) : Bool :=
  c = ' ' || c = '\t' || c = '\n' || c = '\r' || c = '\x0b' || c = '\x0c'

/-- Python `str.strip()`: remove leading and trailing whitespace. -/
def pyStrip (s : String) : String :=
  ⟨((s.data.dropWhile isPySpace).reverse.dropWhile isPySpace).reverse⟩

/-- Python `str.split(sep)` for a single-character separator, on a list of
characters; used by the date-parsing model. -/
def splitOnChar (sep : Char) : List Char → List (List Char)
  | [] => [[]]
  | c :: cs =>
    if c = sep then [] :: splitOnChar sep cs
    else
      match splitOnChar sep cs with
      | g :: gs => (c :: g) :: gs
      | [] => [[c]]

/-- Model of the external `dateutil.parser.parse` (a third-party library, not
part of this repository), restricted to ISO `YYYY-MM-DD` date strings.  The
parsed date is encoded as `y * 10000 + m * 100 + d`; for in-range months and
days this encoding is an order embedding of calendar dates, so comparisons on
the encoding agree with `datetime` comparisons in the script. -/
def natDigits? (cs : List Char) : Option Nat :=
  if cs ≠ [] ∧ cs.all Char.isDigit then
    some (cs.foldl (fun acc c => acc * 10 + (c.toNat - 48)) 0)
  else none

/-- See `natDigits?`: ISO-date fragment of `dateutil.parser.parse`. -/
def dateParse (str : String) : Option Nat :=
  match splitOnChar '-' str.data with
  | [y, m, d] =>
    match natDigits? y, natDigits? m, natDigits? d with
    | some yn, some mn, some dn =>
      if 1 ≤ mn ∧ mn ≤ 12 ∧ 1 ≤ dn ∧ dn ≤ 31 then
        some (yn * 10000 + mn * 100 + dn)
      else none
    | _, _, _ => none
  | _ => none

/-- Model of Python `int(...)` on an already-stripped string: an optional
sign followed by a non-empty run of digits. -/
def pyInt (str : String) : Option Int :=
  match str.data with
  | '-' :: rest => (natDigits? rest).map (fun n => -(n : Int))
  | '+' :: rest => (natDigits? rest).map Int.ofNat
  | cs => (natDigits? cs).map Int.ofNat

/-- The per-key conversion from the `HEADERS` dict: `str` for `Title`,
`Template` and `MetaDescription`, `parse` for `DatePublished`, `int` for
`IsDraft`.  Only invoked on keys that passed the schema-membership check. -/
def convert (key value : String) : Option HVal :=
  if key = "DatePublished" then (dateParse value).map HVal.date
  else if key = "IsDraft" then (pyInt value).map HVal.i
  else some (HVal.s value)

/-- `line.split(":", 1)` on a list of characters: split at the first colon,
`none` when no colon occurs (in Python the result then has a single element
and the two-name unpacking raises `ValueError`). -/
def splitFirstColonAux : List Char → Option (List Char × List Char)
  | [] => none
  | c :: cs =>
    if c = ':' then some ([], cs)
    else
      match splitFirstColonAux cs with
      | some (a, b) => some (c :: a, b)
      | none => none

/-- `line.split(":", 1)` at the string level; see `splitFirstColonAux`. -/
def pySplit1Colon (line : String) : Option (String × String) :=
  match splitFirstColonAux line.data with
  | some (a, b) => some (⟨a⟩, ⟨b⟩)
  | none => none

/-- Fatal errors: each constructor corresponds to one `logger.error` +
`sys.exit(1)` site in `main.py`, carrying the data interpolated into the
message. -/
inductive FatalErr where
  /-- Message: File (path) has invalid header field: (key). -/
  | invalidHeaderField (path key : String)
  /-- Message: Unable to parse (key) from (path). -/
  | unableToParse (path key : String)
  /-- Message: Missing header fields (missing) in the file (path). -/
  | missingHeaderFields (path : String) (missing : List String)
  /-- Message: Not all header provided in (path). -/
  | notAllHeader (path : String)
  /-- Message: Template (shown) does not exists.  In the source, the
  interpolated variable tpl holds the value bound by the walrus operator,
  namely the boolean result of the exists() call, which is False on this
  branch; the string shown in the message is recorded here. -/
  | templateMissing (shown : String)
deriving DecidableEq, Repr

/-- Result of `head_to_context`: a context dict on success, a logged fatal
error (`sys.exit(1)`), or an unhandled Python exception. -/
inductive ParseOutcome where
  | ok (ctx : List (String × HVal))
  | fatal (e : FatalErr)
  | exn (e : String)
deriving DecidableEq, Repr

/-- Python dict assignment `result[key] = v` on an association list:
overwrite in place if the key is present, else append at the end. -/
def dictInsert (k : String) (v : HVal) : List (String × HVal) → List (String × HVal)
  | [] => [(k, v)]
  | p :: rest => if p.1 = k then (k, v) :: rest else p :: dictInsert k v rest

/-- The loop body and final check of `head_to_context`, with the partially
built `result` dict made explicit. -/
def head_to_context_go (path : String) :
    List String → List (String × HVal) → ParseOutcome
  | [], result =>
    match HEADERS_keys.filter (fun k => (result.lookup k).isNone) with
    | [] => .ok result
    | missing => .fatal (.missingHeaderFields path missing)
  | line :: rest, result =>
    match pySplit1Colon line with
    | none => .exn "ValueError"
    | some (k0, v0) =>
      let key := pyStrip k0
      let value := pyStrip v0
      if key ∈ HEADERS_keys then
        match convert key value with
        | some v => head_to_context_go path rest (dictInsert key v result)
        | none => .fatal (.unableToParse path key)
      else .fatal (.invalidHeaderField path key)

/-- `head_to_context(head, path)` from `main.py`. -/
def head_to_context (head : List String) (path : String) : ParseOutcome :=
  head_to_context_go path head []

/-- A source document under `src/*.md`: its path (used in error messages),
its filename stem (the output file is `stem + ".html"` in the posts
directory), and its lines. -/
structure Doc where
  path : String
  stem : String
  lines : List String
deriving DecidableEq, Repr

/-- `in_file.read()` after the five header lines were consumed: the body is
the rest of the file. -/
def docBody (d : Doc) : String :=
  String.intercalate "\n" (d.lines.drop HEADER_LINES)

/-- The `RenderRecord` dataclass from `main.py`; `DatePublished` uses the
date encoding of `dateParse`. -/
structure RenderRecord where
  InPath : String
  OutPath : String
  Title : String
  DatePublished : Nat
  IsDraft : Int
deriving DecidableEq, Repr

/-- The `Url` property of `RenderRecord`: `f"posts/\x7bself.OutPath.name\x7d"`
(output paths are modelled relative to the posts directory). -/
def RenderRecord.Url (r : RenderRecord) : String := "posts/" ++ r.OutPath

/-- One written output file, recorded as the data handed to the template
engine: output path, template name, and the render context. -/
structure OutFile where
  path : String
  template : String
  context : List (String × HVal)
deriving DecidableEq, Repr

/-- Outcome of the per-document loop: accumulated written files and render
records on success, or termination carrying the files already on disk. -/
inductive StepResult where
  | ok (written : List OutFile) (records : List RenderRecord)
  | fatal (written : List OutFile) (e : FatalErr)
  | exn (written : List OutFile) (e : String)
deriving DecidableEq, Repr

/-- `context["Template"]` (and `Title`) extraction: on every reachable call
the key is present with a string value, since `head_to_context` only
succeeds when all five schema keys were parsed. -/
def getStr (ctx : List (String × HVal)) (k : String) : String :=
  match ctx.lookup k with
  | some (.s v) => v
  | _ => ""

/-- `context["DatePublished"]` extraction; see `getStr`. -/
def getDate (ctx : List (String × HVal)) : Nat :=
  match ctx.lookup "DatePublished" with
  | some (.date v) => v
  | _ => 0

/-- `context["IsDraft"]` extraction; see `getStr`. -/
def getInt (ctx : List (String × HVal)) : Int :=
  match ctx.lookup "IsDraft" with
  | some (.i v) => v
  | _ => 0

/-- The `for match in SRC_DIR.glob("*.md")` loop of `run`, over an explicit
document list; `md` is the shared markdown converter and `templates` the
set of file names present under the template directory. -/
def processDocs (md : String → String) (templates : List String) :
    List Doc → List OutFile → List RenderRecord → StepResult
  | [], written, records => .ok written records
  | d :: docs, written, records =>
    if d.lines.length < HEADER_LINES then
      .fatal written (.notAllHeader d.path)
    else
      match head_to_context (d.lines.take HEADER_LINES) d.path with
      | .fatal e => .fatal written e
      | .exn e => .exn written e
      | .ok ctx =>
        let ctx2 := dictInsert "PostMarkup" (.s (md (docBody d))) ctx
        let tplName := getStr ctx2 "Template"
        if tplName ∈ templates then
          let out : OutFile := ⟨d.stem ++ ".html", tplName, ctx2⟩
          let record : RenderRecord :=
            ⟨d.path, d.stem ++ ".html", getStr ctx2 "Title", getDate ctx2, getInt ctx2⟩
          processDocs md templates docs (written ++ [out]) (records ++ [record])
        else
          -- `tpl` was bound by the walrus to the result of `.exists()`,
          -- so the interpolated value on this branch is the boolean False.
          .fatal written (.templateMissing "False")

/-- Insertion step of the stable descending sort: `x` is placed before the
first element whose key is ≤ its own, i.e. before later-enumerated elements
with an equal key and after strictly larger ones. -/
def insertDesc {α : Type} (key : α → Nat) (x : α) : List α → List α
  | [] => [x]
  | y :: ys => if key y ≤ key x then x :: y :: ys else y :: insertDesc key x ys

/-- Model of Python `sorted(l, key=key, reverse=True)`: a stable sort,
descending on `key`.  Stable sorts with the same comparator produce the same
list, so this insertion sort is exchangeable with Python's timsort here. -/
def pySortedDesc {α : Type} (key : α → Nat) (l : List α) : List α :=
  l.foldr (insertDesc key) []

/-- Final outcome of `run()`: full success with the index record list, an
explicit `sys.exit(1)` after a logged error, or an unhandled exception; in
every case the per-document files already written are carried along. -/
inductive RunOutcome where
  | success (written : List OutFile) (index : List RenderRecord)
  | fatalExit (written : List OutFile) (e : FatalErr)
  | uncaught (written : List OutFile) (e : String)
deriving DecidableEq, Repr

/-- `run()` from `main.py`: clear the posts directory, process every source
document, then render `index.jinja2` with the records sorted by
`DatePublished` descending.  A missing index template surfaces as the
uncaught jinja2 `TemplateNotFound` exception, after the document loop. -/
def run (md : String → String) (templates : List String) (docs : List Doc) :
    RunOutcome :=
  match processDocs md templates docs [] [] with
  | .fatal w e => .fatalExit w e
  | .exn w e => .uncaught w e
  | .ok w records =>
    if "index.jinja2" ∈ templates then
      .success w (pySortedDesc RenderRecord.DatePublished records)
    else
      .uncaught w "TemplateNotFound"

/-! ### Derived definitions used to state and prove the claims -/

/-- A well-formed `Key: value` header line built from a key/value pair. -/
def mkLine (p : String × String) : String := p.1 ++ ":" ++ p.2

/-- A header pair the parser accepts: the key segment holds no further
colon, strips to a schema key, and the stripped value converts. -/
def wfPair (p : String × String) : Prop :=
  ':' ∉ p.1.data ∧ pyStrip p.1 ∈ HEADERS_keys
    ∧ (convert (pyStrip p.1) (pyStrip p.2)).isSome

instance (p : String × String) : Decidable (wfPair p) := by
  unfold wfPair
  infer_instance

/-- The converted `(key, value)` pairs of a list of header pairs, in line
order: stripped key with the coerced value. -/
def convertedPairs (kvs : List (String × String)) : List (String × HVal) :=
  kvs.map (fun p => (pyStrip p.1, (convert (pyStrip p.1) (pyStrip p.2)).getD (HVal.s "")))

/-- Fold `dictInsert` over a list of pairs, in order: the dict the parser
loop has built after processing those lines. -/
def insertAll : List (String × HVal) → List (String × HVal) → List (String × HVal)
  | [], acc => acc
  | p :: rest, acc => insertAll rest (dictInsert p.1 p.2 acc)

/-- The value of the last pair with the given key, if any: the value a
Python dict retains after repeated assignments. -/
def lastVal? (k : String) : List (String × HVal) → Option HVal
  | [] => none
  | p :: rest =>
    match lastVal? k rest with
    | some v => some v
    | none => if p.1 = k then some p.2 else none

/-! ### Concrete documents and records used to instantiate the theorems -/

/-- Render record dated 2024-01-01 (encoded 20240101). -/
def exampleRecA : RenderRecord := ⟨"src/a.md", "a.html", "A", 20240101, 0⟩

/-- Render record dated 2024-06-01 (encoded 20240601). -/
def exampleRecB : RenderRecord := ⟨"src/b.md", "b.html", "B", 20240601, 0⟩

/-- Render record dated 2023-12-01 (encoded 20231201). -/
def exampleRecC : RenderRecord := ⟨"src/c.md", "c.html", "C", 20231201, 0⟩

/-- A valid source document dated 2024-01-01. -/
def exampleDocA : Doc :=
  ⟨"src/a.md", "a",
   ["Title: A", "Template: post.jinja2", "MetaDescription: da",
    "DatePublished: 2024-01-01", "IsDraft: 0", "body a"]⟩

/-- A valid source document dated 2024-06-01. -/
def exampleDocB : Doc :=
  ⟨"src/b.md", "b",
   ["Title: B", "Template: post.jinja2", "MetaDescription: db",
    "DatePublished: 2024-06-01", "IsDraft: 1", "body b"]⟩

/-- The output files written by the concrete two-document run used to
instantiate `run_index_sorted_C1`. -/
def run_C1_written : List OutFile :=
  [⟨"a.html", "post.jinja2",
    [("Title", .s "A"), ("Template", .s "post.jinja2"),
     ("MetaDescription", .s "da"), ("DatePublished", .date 20240101),
     ("IsDraft", .i 0), ("PostMarkup", .s "body a")]⟩,
   ⟨"b.html", "post.jinja2",
    [("Title", .s "B"), ("Template", .s "post.jinja2"),
     ("MetaDescription", .s "db"), ("DatePublished", .date 20240601),
     ("IsDraft", .i 1), ("PostMarkup", .s "body b")]⟩]

/-- The index produced by the concrete two-document run: the 2024-06-01
record precedes the 2024-01-01 one. -/
def run_C1_index : List RenderRecord :=
  [⟨"src/b.md", "b.html", "B", 20240601, 1⟩,
   ⟨"src/a.md", "a.html", "A", 20240101, 0⟩]

/-- A scrambled-order, whitespace-padded valid header used to instantiate
the C2 theorem. -/
def C2_kvs : List (String × String) :=
  [("DatePublished", " 2024-06-01"), ("Title", " Hello"), ("IsDraft", " 0"),
   ("Template", " post.jinja2"), ("MetaDescription", " d")]

/-- A five-line header with `Title` repeated and `Template` absent, used to
instantiate the C4 theorem. -/
def C4_kvs : List (String × String) :=
  [("Title", "A"), ("Title", "B"), ("MetaDescription", "d"),
   ("DatePublished", "2024-06-01"), ("IsDraft", "0")]

/-- A five-line header whose last line repeats `Title` (so `Template` is
absent), used to instantiate the C9 theorem. -/
def C9_kvs : List (String × String) :=
  [("Title", "A"), ("MetaDescription", "d"), ("DatePublished", "2024-06-01"),
   ("IsDraft", "0"), ("Title", "B")]

/-- The output files of the single-document run used to instantiate C10. -/
def run_C10_written : List OutFile :=
  [⟨"a.html", "post.jinja2",
    [("Title", .s "A"), ("Template", .s "post.jinja2"),
     ("MetaDescription", .s "da"), ("DatePublished", .date 20240101),
     ("IsDraft", .i 0), ("PostMarkup", .s "body a")]⟩]

/-- The failing document for C3: it declares `Template: nonexistent.jinja2`,
which is absent from the template directory. -/
def C3_doc : Doc :=
  ⟨"src/p.md", "p",
   ["Title: Hello", "Template: nonexistent.jinja2", "MetaDescription: d",
    "DatePublished: 2024-06-01", "IsDraft: 0", "body"]⟩

/-! ### Helper lemmas on the stable descending sort -/

theorem insertDesc_perm {α : Type} (key : α → Nat) (x : α) (l : List α) :
    (insertDesc key x l).Perm (x :: l) := by
  induction l with
  | nil => exact List.Perm.refl _
  | cons y ys ih =>
    by_cases hc : key y ≤ key x
    · simp only [insertDesc, if_pos hc]
      exact List.Perm.refl _
    · simp only [insertDesc, if_neg hc]
      exact (ih.cons y).trans (List.Perm.swap x y ys)

theorem insertDesc_sorted {α : Type} (key : α → Nat) (x : α) (l : List α)
    (h : l.Sorted (fun a b => key b ≤ key a)) :
    (insertDesc key x l).Sorted (fun a b => key b ≤ key a) := by
  induction l with
  | nil => simp [insertDesc]
  | cons y ys ih =>
    rw [List.sorted_cons] at h
    obtain ⟨hy, hys⟩ := h
    by_cases hc : key y ≤ key x
    · simp only [insertDesc, if_pos hc]
      rw [List.sorted_cons]
      refine ⟨?_, ?_⟩
      · intro b hb
        rcases List.mem_cons.mp hb with rfl | hb
        · exact hc
        · exact le_trans (hy b hb) hc
      · rw [List.sorted_cons]
        exact ⟨hy, hys⟩
    · simp only [insertDesc, if_neg hc]
      rw [List.sorted_cons]
      refine ⟨?_, ih hys⟩
      intro b hb
      have hb2 := (insertDesc_perm key x ys).mem_iff.mp hb
      rcases List.mem_cons.mp hb2 with rfl | hb3
      · exact le_of_not_le hc
      · exact hy b hb3

theorem insertDesc_filter_eq {α : Type} (key : α → Nat) (x : α) (v : Nat)
    (l : List α) (hx : key x = v) :
    (insertDesc key x l).filter (fun y => key y == v)
      = x :: l.filter (fun y => key y == v) := by
  induction l with
  | nil => simp [insertDesc, List.filter_cons, hx]
  | cons y ys ih =>
    by_cases hc : key y ≤ key x
    · simp only [insertDesc, if_pos hc]
      rw [List.filter_cons, if_pos (by simp [hx])]
    · have hyv : (key y == v) = false := by
        rw [beq_eq_false_iff_ne]
        omega
      simp only [insertDesc, if_neg hc]
      rw [List.filter_cons, if_neg (by simp [hyv]), ih,
        List.filter_cons, if_neg (by simp [hyv])]

theorem insertDesc_filter_ne {α : Type} (key : α → Nat) (x : α) (v : Nat)
    (l : List α) (hx : key x ≠ v) :
    (insertDesc key x l).filter (fun y => key y == v)
      = l.filter (fun y => key y == v) := by
  have hxv : (key x == v) = false := beq_eq_false_iff_ne.mpr hx
  induction l with
  | nil => simp [insertDesc, List.filter_cons, hxv]
  | cons y ys ih =>
    by_cases hc : key y ≤ key x
    · simp only [insertDesc, if_pos hc]
      rw [List.filter_cons, if_neg (by simp [hxv])]
    · simp only [insertDesc, if_neg hc]
      rw [List.filter_cons, ih, List.filter_cons]

theorem pySortedDesc_sorted {α : Type} (key : α → Nat) (l : List α) :
    (pySortedDesc key l).Sorted (fun a b => key b ≤ key a) := by
  induction l with
  | nil => simp [pySortedDesc]
  | cons x xs ih => exact insertDesc_sorted key x _ ih

theorem pySortedDesc_perm {α : Type} (key : α → Nat) (l : List α) :
    (pySortedDesc key l).Perm l := by
  induction l with
  | nil => exact List.Perm.refl _
  | cons x xs ih => exact (insertDesc_perm key x _).trans (ih.cons x)

theorem pySortedDesc_filter {α : Type} (key : α → Nat) (v : Nat) (l : List α) :
    (pySortedDesc key l).filter (fun y => key y == v)
      = l.filter (fun y => key y == v) := by
  induction l with
  | nil => rfl
  | cons x xs ih =>
    by_cases hx : key x = v
    · show (insertDesc key x (pySortedDesc key xs)).filter _ = _
      rw [insertDesc_filter_eq key x v _ hx, ih, List.filter_cons,
        if_pos (by simp [hx])]
    · show (insertDesc key x (pySortedDesc key xs)).filter _ = _
      rw [insertDesc_filter_ne key x v _ hx, ih, List.filter_cons,
        if_neg (by simp [beq_eq_false_iff_ne.mpr hx])]

/-! ### C1: the index is sorted by publish date, descending, stably -/

/-- C1: whenever `run` succeeds, the generated index is exactly the stable
descending sort of the accumulated render records by `DatePublished`: it is
pairwise sorted most-recent-first, it is a permutation of the records in
enumeration order, and records with equal dates keep their original relative
order (the filter at every date value is unchanged).  On the spec's example
dates 2024-01-01, 2024-06-01, 2023-12-01 the index order is 2024-06-01,
2024-01-01, 2023-12-01. -/
theorem run_index_sorted_C1 (md : String → String) (templates : List String)
    (docs : List Doc) (w : List OutFile) (idx : List RenderRecord)
    (h : run md templates docs = .success w idx) :
    (∃ records, processDocs md templates docs [] [] = .ok w records
      ∧ idx = pySortedDesc RenderRecord.DatePublished records
      ∧ idx.Sorted (fun a b => b.DatePublished ≤ a.DatePublished)
      ∧ idx.Perm records
      ∧ ∀ v, idx.filter (fun r => r.DatePublished == v)
           = records.filter (fun r => r.DatePublished == v))
    ∧ pySortedDesc RenderRecord.DatePublished [exampleRecA, exampleRecB, exampleRecC]
      = [exampleRecB, exampleRecA, exampleRecC] := by
  refine ⟨?_, by decide⟩
  unfold run at h
  split at h
  next w' e heq => exact absurd h (by simp)
  next w' e heq => exact absurd h (by simp)
  next w' records heq =>
    split at h
    next hidx =>
      injection h with hw hidx2
      subst hw
      refine ⟨records, heq, hidx2.symm, ?_, ?_, ?_⟩
      · rw [← hidx2]
        exact pySortedDesc_sorted _ _
      · rw [← hidx2]
        exact pySortedDesc_perm _ _
      · intro v
        rw [← hidx2]
        exact pySortedDesc_filter _ _ _
    next hidx => exact absurd h (by simp)

/-- Witness for C1: a concrete two-document run succeeds and its index obeys
every conjunct of `run_index_sorted_C1`. -/
theorem run_index_sorted_C1_witness :
    (∃ records,
      processDocs id ["post.jinja2", "index.jinja2"] [exampleDocA, exampleDocB] [] []
        = .ok (run_C1_written) records
      ∧ run_C1_index = pySortedDesc RenderRecord.DatePublished records
      ∧ run_C1_index.Sorted (fun a b => b.DatePublished ≤ a.DatePublished)
      ∧ run_C1_index.Perm records
      ∧ ∀ v, run_C1_index.filter (fun r => r.DatePublished == v)
           = records.filter (fun r => r.DatePublished == v))
    ∧ pySortedDesc RenderRecord.DatePublished [exampleRecA, exampleRecB, exampleRecC]
      = [exampleRecB, exampleRecA, exampleRecC] :=
  run_index_sorted_C1 id ["post.jinja2", "index.jinja2"] [exampleDocA, exampleDocB]
    run_C1_written run_C1_index (by decide)

/-! ### Helper lemmas on line splitting and the parser loop -/

theorem splitFirstColonAux_of_not_mem (k v : List Char) (hk : ':' ∉ k) :
    splitFirstColonAux (k ++ ':' :: v) = some (k, v) := by
  induction k with
  | nil => simp [splitFirstColonAux]
  | cons c cs ih =>
    have hc : c ≠ ':' := fun h => hk (h ▸ List.mem_cons_self c cs)
    have hk' : ':' ∉ cs := fun h => hk (List.mem_cons_of_mem c h)
    simp [splitFirstColonAux, hc, ih hk']

theorem splitFirstColonAux_eq_none (cs : List Char) (h : ':' ∉ cs) :
    splitFirstColonAux cs = none := by
  induction cs with
  | nil => rfl
  | cons c cs ih =>
    have hc : c ≠ ':' := fun hcc => h (hcc ▸ List.mem_cons_self c cs)
    have h' : ':' ∉ cs := fun hm => h (List.mem_cons_of_mem c hm)
    simp [splitFirstColonAux, hc, ih h']

theorem pySplit1Colon_mkLine (k v : String) (hk : ':' ∉ k.data) :
    pySplit1Colon (mkLine (k, v)) = some (k, v) := by
  have hdata : (mkLine (k, v)).data = k.data ++ ':' :: v.data := by
    show (k ++ ":" ++ v).data = _
    rw [String.data_append, String.data_append]
    show k.data ++ [':'] ++ v.data = _
    rw [List.append_assoc]
    rfl
  unfold pySplit1Colon
  rw [hdata, splitFirstColonAux_of_not_mem k.data v.data hk]

theorem pySplit1Colon_eq_none (line : String) (h : ':' ∉ line.data) :
    pySplit1Colon line = none := by
  unfold pySplit1Colon
  rw [splitFirstColonAux_eq_none line.data h]

theorem lookup_cons (k0 : String) (v0 : HVal) (rest : List (String × HVal))
    (k' : String) :
    List.lookup k' ((k0, v0) :: rest)
      = if k' = k0 then some v0 else List.lookup k' rest := by
  by_cases h : k' = k0
  · simp [List.lookup, h]
  · simp [List.lookup, beq_eq_false_iff_ne.mpr h, h]

theorem dictInsert_lookup (k : String) (v : HVal) (l : List (String × HVal))
    (k' : String) :
    (dictInsert k v l).lookup k' = if k' = k then some v else l.lookup k' := by
  induction l with
  | nil =>
    show List.lookup k' [(k, v)] = _
    rw [lookup_cons]
  | cons p rest ih =>
    obtain ⟨k0, v0⟩ := p
    show (if k0 = k then (k, v) :: rest else (k0, v0) :: dictInsert k v rest).lookup k'
        = _
    by_cases h0 : k0 = k
    · subst h0
      rw [if_pos rfl, lookup_cons, lookup_cons]
      by_cases h' : k' = k0
      · rw [if_pos h', if_pos h']
      · rw [if_neg h', if_neg h', if_neg h']
    · rw [if_neg h0, lookup_cons, ih, lookup_cons]
      by_cases h' : k' = k0
      · have hk : ¬ k' = k := fun hh => h0 (h'.symm.trans hh)
        rw [if_pos h', if_neg hk, if_pos h']
      · rw [if_neg h']
        by_cases hk : k' = k
        · rw [if_pos hk, if_pos hk]
        · rw [if_neg hk, if_neg hk, if_neg h']

theorem insertAll_lookup (pairs : List (String × HVal))
    (acc : List (String × HVal)) (k : String) :
    (insertAll pairs acc).lookup k
      = match lastVal? k pairs with
        | some v => some v
        | none => acc.lookup k := by
  induction pairs generalizing acc with
  | nil => rfl
  | cons p rest ih =>
    obtain ⟨k0, v0⟩ := p
    show (insertAll rest (dictInsert k0 v0 acc)).lookup k = _
    rw [ih]
    cases hl : lastVal? k rest with
    | some v => simp [lastVal?, hl]
    | none =>
      simp only [lastVal?, hl]
      rw [dictInsert_lookup]
      by_cases h : k = k0
      · subst h
        simp
      · rw [if_neg h, if_neg (fun hh => h hh.symm)]

theorem lastVal?_eq_none_iff (k : String) (pairs : List (String × HVal)) :
    lastVal? k pairs = none ↔ k ∉ pairs.map Prod.fst := by
  induction pairs with
  | nil => simp [lastVal?]
  | cons p rest ih =>
    obtain ⟨k0, v0⟩ := p
    simp only [List.map_cons, List.mem_cons]
    cases hl : lastVal? k rest with
    | some v =>
      have hmem : k ∈ rest.map Prod.fst := by
        by_contra hnm
        rw [← ih] at hnm
        rw [hl] at hnm
        exact Option.noConfusion hnm
      simp only [lastVal?, hl]
      constructor
      · intro h
        exact Option.noConfusion h
      · intro h
        exact absurd (Or.inr hmem) h
    | none =>
      simp only [lastVal?, hl]
      rw [hl] at ih
      have hnm : k ∉ rest.map Prod.fst := ih.mp rfl
      by_cases h0 : k0 = k
      · subst h0
        simp
      · simp only [if_neg h0]
        constructor
        · intro _ hor
          rcases hor with rfl | hm
          · exact h0 rfl
          · exact hnm hm
        · intro _
          trivial

theorem lastVal?_of_mem_nodup (pairs : List (String × HVal)) (k : String)
    (v : HVal) (hmem : (k, v) ∈ pairs) (hnd : (pairs.map Prod.fst).Nodup) :
    lastVal? k pairs = some v := by
  induction pairs with
  | nil => cases hmem
  | cons p rest ih =>
    obtain ⟨k0, v0⟩ := p
    rw [List.map_cons, List.nodup_cons] at hnd
    obtain ⟨hk0, hnd'⟩ := hnd
    rcases List.mem_cons.mp hmem with heq | hmem'
    · obtain ⟨h1, h2⟩ := Prod.mk.inj heq
      subst h1
      subst h2
      have hnone : lastVal? k rest = none := (lastVal?_eq_none_iff _ _).mpr hk0
      simp [lastVal?, hnone]
    · have hsome := ih hmem' hnd'
      simp [lastVal?, hsome]

theorem convertedPairs_fst (kvs : List (String × String)) :
    (convertedPairs kvs).map Prod.fst = kvs.map (fun p => pyStrip p.1) := by
  simp [convertedPairs, List.map_map]

theorem head_to_context_go_append (path : String) (kvs : List (String × String))
    (tail : List String) (acc : List (String × HVal))
    (h : ∀ p ∈ kvs, wfPair p) :
    head_to_context_go path (kvs.map mkLine ++ tail) acc
      = head_to_context_go path tail (insertAll (convertedPairs kvs) acc) := by
  induction kvs generalizing acc with
  | nil => rfl
  | cons p rest ih =>
    obtain ⟨k, v⟩ := p
    obtain ⟨hcolon, hkey, hconv⟩ := h (k, v) (List.mem_cons_self _ _)
    obtain ⟨w, hw⟩ := Option.isSome_iff_exists.mp hconv
    show head_to_context_go path (mkLine (k, v) :: (rest.map mkLine ++ tail)) acc = _
    rw [head_to_context_go, pySplit1Colon_mkLine k v hcolon]
    simp only [if_pos hkey, hw]
    show head_to_context_go path (rest.map mkLine ++ tail)
        (dictInsert (pyStrip k) w acc) = _
    rw [ih _ (fun q hq => h q (List.mem_cons_of_mem _ hq))]
    show _ = head_to_context_go path tail
        (insertAll ((pyStrip k, (convert (pyStrip k) (pyStrip v)).getD (HVal.s ""))
          :: convertedPairs rest) acc)
    rw [hw]
    rfl

theorem head_to_context_go_nil_ok (path : String) (result : List (String × HVal))
    (h : ∀ k ∈ HEADERS_keys, (result.lookup k).isSome) :
    head_to_context_go path [] result = .ok result := by
  have hf : HEADERS_keys.filter (fun k => (result.lookup k).isNone) = [] := by
    rw [List.filter_eq_nil_iff]
    intro k hk
    have hs := h k hk
    cases hl : result.lookup k with
    | some v => simp [hl]
    | none =>
      rw [hl] at hs
      simp at hs
  show (match HEADERS_keys.filter (fun k => (result.lookup k).isNone) with
    | [] => ParseOutcome.ok result
    | missing => ParseOutcome.fatal (.missingHeaderFields path missing)) = _
  rw [hf]

theorem head_to_context_go_nil_fatal (path : String)
    (result : List (String × HVal))
    (h : HEADERS_keys.filter (fun k => (result.lookup k).isNone) ≠ []) :
    head_to_context_go path [] result
      = .fatal (.missingHeaderFields path
          (HEADERS_keys.filter (fun k => (result.lookup k).isNone))) := by
  show (match HEADERS_keys.filter (fun k => (result.lookup k).isNone) with
    | [] => ParseOutcome.ok result
    | missing => ParseOutcome.fatal (.missingHeaderFields path missing)) = _
  cases hf : HEADERS_keys.filter (fun k => (result.lookup k).isNone) with
  | nil => exact absurd hf h
  | cons a l => rfl

/-! ### C2: a valid five-line header parses to exactly the five coerced fields -/

/-- C2: for a document whose first five lines are well-formed `Key: value`
lines whose stripped keys cover exactly the five schema fields, in any
order, and whose stripped values convert, `head_to_context` returns a
mapping containing exactly those five keys, with `Title`, `Template` and
`MetaDescription` passed through as strings, `DatePublished` coerced to the
date encoding, and `IsDraft` coerced to an integer. -/
theorem head_to_context_valid_C2 (path : String) (kvs : List (String × String))
    (hcolon : ∀ p ∈ kvs, ':' ∉ p.1.data)
    (hperm : (kvs.map (fun p => pyStrip p.1)).Perm HEADERS_keys)
    (hconv : ∀ p ∈ kvs, (convert (pyStrip p.1) (pyStrip p.2)).isSome) :
    ∃ ctx, head_to_context (kvs.map mkLine) path = .ok ctx
      ∧ (∀ k, (ctx.lookup k).isSome ↔ k ∈ HEADERS_keys)
      ∧ (∀ k raw, (k, raw) ∈ kvs →
          ctx.lookup (pyStrip k) = convert (pyStrip k) (pyStrip raw))
      ∧ (∀ k raw, (k, raw) ∈ kvs → pyStrip k = "Title" →
          ctx.lookup "Title" = some (.s (pyStrip raw)))
      ∧ (∀ k raw, (k, raw) ∈ kvs → pyStrip k = "Template" →
          ctx.lookup "Template" = some (.s (pyStrip raw)))
      ∧ (∀ k raw, (k, raw) ∈ kvs → pyStrip k = "MetaDescription" →
          ctx.lookup "MetaDescription" = some (.s (pyStrip raw)))
      ∧ (∀ k raw, (k, raw) ∈ kvs → pyStrip k = "DatePublished" →
          ∃ d, dateParse (pyStrip raw) = some d
            ∧ ctx.lookup "DatePublished" = some (.date d))
      ∧ (∀ k raw, (k, raw) ∈ kvs → pyStrip k = "IsDraft" →
          ∃ n, pyInt (pyStrip raw) = some n
            ∧ ctx.lookup "IsDraft" = some (.i n)) := by
  have hwf : ∀ p ∈ kvs, wfPair p := fun p hp =>
    ⟨hcolon p hp, hperm.subset (List.mem_map_of_mem _ hp), hconv p hp⟩
  have hnd : ((convertedPairs kvs).map Prod.fst).Nodup := by
    rw [convertedPairs_fst]
    exact hperm.nodup_iff.mpr (by decide)
  have hlook2 : ∀ k, (insertAll (convertedPairs kvs) []).lookup k
      = lastVal? k (convertedPairs kvs) := by
    intro k
    rw [insertAll_lookup]
    cases lastVal? k (convertedPairs kvs) <;> rfl
  have hmemlook : ∀ k raw, (k, raw) ∈ kvs →
      (insertAll (convertedPairs kvs) []).lookup (pyStrip k)
        = convert (pyStrip k) (pyStrip raw) := by
    intro k raw hm
    obtain ⟨w, hw⟩ := Option.isSome_iff_exists.mp (hconv (k, raw) hm)
    have hmem2 : (pyStrip k, (convert (pyStrip k) (pyStrip raw)).getD (HVal.s ""))
        ∈ convertedPairs kvs := List.mem_map_of_mem _ hm
    rw [hlook2, lastVal?_of_mem_nodup _ _ _ hmem2 hnd, hw]
    rfl
  have hsome : ∀ k, ((insertAll (convertedPairs kvs) []).lookup k).isSome
      ↔ k ∈ HEADERS_keys := by
    intro k
    rw [hlook2]
    constructor
    · intro hs
      have hne : ¬ (k ∉ (convertedPairs kvs).map Prod.fst) := fun hnm => by
        rw [(lastVal?_eq_none_iff k _).mpr hnm] at hs
        simp at hs
      have hk := not_not.mp hne
      rw [convertedPairs_fst] at hk
      exact hperm.subset hk
    · intro hk
      cases hl : lastVal? k (convertedPairs kvs) with
      | some v => simp
      | none =>
        have hnm := (lastVal?_eq_none_iff k _).mp hl
        rw [convertedPairs_fst] at hnm
        exact absurd (hperm.mem_iff.mpr hk) hnm
  have hok : head_to_context (kvs.map mkLine) path
      = .ok (insertAll (convertedPairs kvs) []) := by
    show head_to_context_go path (kvs.map mkLine) [] = _
    have happ := head_to_context_go_append path kvs [] [] hwf
    rw [List.append_nil] at happ
    rw [happ]
    exact head_to_context_go_nil_ok path _ (fun k hk => (hsome k).mpr hk)
  refine ⟨insertAll (convertedPairs kvs) [], hok, hsome, hmemlook, ?_, ?_, ?_, ?_, ?_⟩
  · intro k raw hm hk
    have h1 := hmemlook k raw hm
    rw [hk] at h1
    rw [h1]
    rfl
  · intro k raw hm hk
    have h1 := hmemlook k raw hm
    rw [hk] at h1
    rw [h1]
    rfl
  · intro k raw hm hk
    have h1 := hmemlook k raw hm
    rw [hk] at h1
    rw [h1]
    rfl
  · intro k raw hm hk
    have h1 := hmemlook k raw hm
    rw [hk] at h1
    have h2 := hconv (k, raw) hm
    rw [hk] at h2
    cases hdp : dateParse (pyStrip raw) with
    | none =>
      rw [show convert "DatePublished" (pyStrip raw)
          = (dateParse (pyStrip raw)).map HVal.date from rfl, hdp] at h2
      simp at h2
    | some d =>
      refine ⟨d, rfl, ?_⟩
      rw [h1]
      rw [show convert "DatePublished" (pyStrip raw)
          = (dateParse (pyStrip raw)).map HVal.date from rfl, hdp]
      rfl
  · intro k raw hm hk
    have h1 := hmemlook k raw hm
    rw [hk] at h1
    have h2 := hconv (k, raw) hm
    rw [hk] at h2
    cases hdp : pyInt (pyStrip raw) with
    | none =>
      rw [show convert "IsDraft" (pyStrip raw)
          = (pyInt (pyStrip raw)).map HVal.i from rfl, hdp] at h2
      simp at h2
    | some n =>
      refine ⟨n, rfl, ?_⟩
      rw [h1]
      rw [show convert "IsDraft" (pyStrip raw)
          = (pyInt (pyStrip raw)).map HVal.i from rfl, hdp]
      rfl

/-- Witness for C2: the scrambled, whitespace-padded header `C2_kvs`
satisfies every hypothesis and so parses to the five coerced fields. -/
theorem head_to_context_valid_C2_witness :
    ∃ ctx, head_to_context (C2_kvs.map mkLine) "src/p.md" = .ok ctx
      ∧ (∀ k, (ctx.lookup k).isSome ↔ k ∈ HEADERS_keys)
      ∧ (∀ k raw, (k, raw) ∈ C2_kvs →
          ctx.lookup (pyStrip k) = convert (pyStrip k) (pyStrip raw))
      ∧ (∀ k raw, (k, raw) ∈ C2_kvs → pyStrip k = "Title" →
          ctx.lookup "Title" = some (.s (pyStrip raw)))
      ∧ (∀ k raw, (k, raw) ∈ C2_kvs → pyStrip k = "Template" →
          ctx.lookup "Template" = some (.s (pyStrip raw)))
      ∧ (∀ k raw, (k, raw) ∈ C2_kvs → pyStrip k = "MetaDescription" →
          ctx.lookup "MetaDescription" = some (.s (pyStrip raw)))
      ∧ (∀ k raw, (k, raw) ∈ C2_kvs → pyStrip k = "DatePublished" →
          ∃ d, dateParse (pyStrip raw) = some d
            ∧ ctx.lookup "DatePublished" = some (.date d))
      ∧ (∀ k raw, (k, raw) ∈ C2_kvs → pyStrip k = "IsDraft" →
          ∃ n, pyInt (pyStrip raw) = some n
            ∧ ctx.lookup "IsDraft" = some (.i n)) :=
  head_to_context_valid_C2 "src/p.md" C2_kvs (by decide) (by decide) (by decide)

/-! ### Shared consequences of the parser loop on well-formed lines -/

theorem insertAll_nil_lookup (pairs : List (String × HVal)) (k : String) :
    (insertAll pairs []).lookup k = lastVal? k pairs := by
  rw [insertAll_lookup]
  cases lastVal? k pairs <;> rfl

theorem lastVal?_append (k : String) (p1 p2 : List (String × HVal)) :
    lastVal? k (p1 ++ p2)
      = match lastVal? k p2 with
        | some v => some v
        | none => lastVal? k p1 := by
  induction p1 with
  | nil =>
    show lastVal? k p2 = _
    cases lastVal? k p2 <;> rfl
  | cons q rest ih =>
    show (match lastVal? k (rest ++ p2) with
      | some v => some v
      | none => if q.1 = k then some q.2 else none) = _
    rw [ih]
    cases hl : lastVal? k p2 with
    | some v => rfl
    | none =>
      show (match lastVal? k rest with
        | some v => some v
        | none => if q.1 = k then some q.2 else none) = _
      rfl

theorem head_to_context_wf_missing (path : String) (kvs : List (String × String))
    (hwf : ∀ p ∈ kvs, wfPair p)
    (hmiss : ∃ k ∈ HEADERS_keys, k ∉ kvs.map (fun p => pyStrip p.1)) :
    ∃ missing, head_to_context (kvs.map mkLine) path
        = .fatal (.missingHeaderFields path missing)
      ∧ missing ≠ []
      ∧ (∀ k, k ∈ missing ↔ k ∈ HEADERS_keys
          ∧ k ∉ kvs.map (fun p => pyStrip p.1)) := by
  have hfilter : ∀ k, ((insertAll (convertedPairs kvs) []).lookup k).isNone = true
      ↔ k ∉ kvs.map (fun p => pyStrip p.1) := by
    intro k
    rw [insertAll_nil_lookup, Option.isNone_iff_eq_none, lastVal?_eq_none_iff,
      convertedPairs_fst]
  obtain ⟨k0, hk0mem, hk0abs⟩ := hmiss
  have hne : HEADERS_keys.filter
      (fun k => ((insertAll (convertedPairs kvs) []).lookup k).isNone) ≠ [] := by
    intro hnil
    have hmem : k0 ∈ HEADERS_keys.filter
        (fun k => ((insertAll (convertedPairs kvs) []).lookup k).isNone) :=
      List.mem_filter.mpr ⟨hk0mem, (hfilter k0).mpr hk0abs⟩
    rw [hnil] at hmem
    cases hmem
  refine ⟨_, ?_, hne, ?_⟩
  · show head_to_context_go path (kvs.map mkLine) [] = _
    have happ := head_to_context_go_append path kvs [] [] hwf
    rw [List.append_nil] at happ
    rw [happ]
    exact head_to_context_go_nil_fatal path _ hne
  · intro k
    rw [List.mem_filter]
    exact and_congr_right (fun _ => hfilter k)

/-! ### C4: known keys but uncovered fields abort with exactly the missing set -/

/-- C4: for a five-line header whose lines all have `Key: value` shape with
known schema keys and convertible values, but whose keys do not cover all
five schema fields, the parser aborts (returns the fatal outcome, never a
context) and the reported missing set holds exactly the absent field names
together with the file path. -/
theorem head_to_context_missing_C4 (path : String) (kvs : List (String × String))
    (hlen : kvs.length = HEADER_LINES)
    (hwf : ∀ p ∈ kvs, wfPair p)
    (hmiss : ∃ k ∈ HEADERS_keys, k ∉ kvs.map (fun p => pyStrip p.1)) :
    ∃ missing, head_to_context (kvs.map mkLine) path
        = .fatal (.missingHeaderFields path missing)
      ∧ missing ≠ []
      ∧ (∀ k, k ∈ missing ↔ k ∈ HEADERS_keys
          ∧ k ∉ kvs.map (fun p => pyStrip p.1)) :=
  head_to_context_wf_missing path kvs hwf hmiss

/-- Witness for C4: the header `C4_kvs` (Title repeated, Template absent)
aborts with a missing-fields error reporting exactly `Template`. -/
theorem head_to_context_missing_C4_witness :
    ∃ missing, head_to_context (C4_kvs.map mkLine) "src/p.md"
        = .fatal (.missingHeaderFields "src/p.md" missing)
      ∧ missing ≠ []
      ∧ (∀ k, k ∈ missing ↔ k ∈ HEADERS_keys
          ∧ k ∉ C4_kvs.map (fun p => pyStrip p.1)) :=
  head_to_context_missing_C4 "src/p.md" C4_kvs (by decide) (by decide) (by decide)

/-! ### C5: an unknown header key aborts before its value is converted -/

/-- C5: if a header line's key (split at the first colon, then stripped)
falls outside the five-field schema, the parser aborts fatally reporting
that key and the file.  The value of the offending line and all later lines
are universally quantified with no convertibility assumption, so the abort
happens before any conversion of that line's value is attempted. -/
theorem unknown_key_C5 (path : String) (kvs1 : List (String × String))
    (k v : String) (rest : List String)
    (h1 : ∀ p ∈ kvs1, wfPair p)
    (hk : ':' ∉ k.data) (hbad : pyStrip k ∉ HEADERS_keys) :
    head_to_context (kvs1.map mkLine ++ mkLine (k, v) :: rest) path
      = .fatal (.invalidHeaderField path (pyStrip k)) := by
  show head_to_context_go path _ [] = _
  rw [head_to_context_go_append path kvs1 _ [] h1]
  rw [head_to_context_go, pySplit1Colon_mkLine k v hk]
  simp only [if_neg hbad]

/-- Witness for C5: a `Bogus` key after one valid line aborts naming
`Bogus`, whatever its unparseable-date value would have been. -/
theorem unknown_key_C5_witness :
    head_to_context ([("Title", "A")].map mkLine
        ++ mkLine ("Bogus", "not-a-date") :: ["DatePublished: zzz"]) "src/p.md"
      = .fatal (.invalidHeaderField "src/p.md" "Bogus") :=
  unknown_key_C5 "src/p.md" [("Title", "A")] "Bogus" "not-a-date"
    ["DatePublished: zzz"] (by decide) (by decide) (by decide)

/-! ### C8: a header line without a colon raises an unhandled exception -/

/-- C8: a header line containing no colon at all makes the parser return
the unhandled-exception outcome (Python's `ValueError` from unpacking the
one-element `split(":", 1)` result), not the logged fatal-error outcome:
the `Key: value` shape is an unchecked precondition of `head_to_context`. -/
theorem no_colon_exn_C8 (path : String) (kvs1 : List (String × String))
    (line : String) (rest : List String)
    (h1 : ∀ p ∈ kvs1, wfPair p) (hline : ':' ∉ line.data) :
    head_to_context (kvs1.map mkLine ++ line :: rest) path = .exn "ValueError" := by
  show head_to_context_go path _ [] = _
  rw [head_to_context_go_append path kvs1 _ [] h1]
  rw [head_to_context_go, pySplit1Colon_eq_none line hline]

/-- Witness for C8: a colon-free second line raises the exception outcome. -/
theorem no_colon_exn_C8_witness :
    head_to_context ([("Title", "A")].map mkLine
        ++ "no colon here" :: ["IsDraft: 0"]) "src/p.md" = .exn "ValueError" :=
  no_colon_exn_C8 "src/p.md" [("Title", "A")] "no colon here" ["IsDraft: 0"]
    (by decide) (by decide)

/-! ### C9: repeated keys keep the last value and report missing fields -/

theorem lastVal?_cons (k : String) (p : String × HVal)
    (rest : List (String × HVal)) :
    lastVal? k (p :: rest)
      = match lastVal? k rest with
        | some v => some v
        | none => if p.1 = k then some p.2 else none := rfl

/-- C9: for a five-line header of well-formed known-key lines in which the
schema key `pyStrip kB` occurs at two positions (the later one carrying the
raw value `rawB`, with no further occurrence after it), the parser's dict
retains only the conversion of that last occurrence, and the failure is
reported as a missing-fields error naming exactly the absent schema fields
and the file — there is no duplicate-key error path. -/
theorem duplicate_key_C9 (path : String) (kvs l1 l2 l3 : List (String × String))
    (kA kB rawA rawB : String)
    (hsplit : kvs = l1 ++ (kA, rawA) :: l2 ++ (kB, rawB) :: l3)
    (hA : pyStrip kA = pyStrip kB)
    (hlast : ∀ p ∈ l3, pyStrip p.1 ≠ pyStrip kB)
    (hlen : kvs.length = HEADER_LINES)
    (hwf : ∀ p ∈ kvs, wfPair p) :
    (insertAll (convertedPairs kvs) []).lookup (pyStrip kB)
        = convert (pyStrip kB) (pyStrip rawB)
    ∧ ∃ missing, head_to_context (kvs.map mkLine) path
        = .fatal (.missingHeaderFields path missing)
      ∧ missing ≠ []
      ∧ (∀ k, k ∈ missing ↔ k ∈ HEADERS_keys
          ∧ k ∉ kvs.map (fun p => pyStrip p.1)) := by
  have hmemB : (kB, rawB) ∈ kvs := by
    rw [hsplit]
    simp
  have hwfB := hwf _ hmemB
  obtain ⟨w, hw⟩ := Option.isSome_iff_exists.mp hwfB.2.2
  have hl3 : lastVal? (pyStrip kB) (convertedPairs l3) = none := by
    rw [lastVal?_eq_none_iff, convertedPairs_fst]
    intro hmem
    obtain ⟨p, hp, hpk⟩ := List.mem_map.mp hmem
    exact hlast p hp hpk
  have hcp : convertedPairs kvs
      = convertedPairs l1
        ++ (pyStrip kA, (convert (pyStrip kA) (pyStrip rawA)).getD (HVal.s ""))
        :: (convertedPairs l2
            ++ (pyStrip kB, (convert (pyStrip kB) (pyStrip rawB)).getD (HVal.s ""))
            :: convertedPairs l3) := by
    rw [hsplit]
    simp [convertedPairs]
  have hl2part : lastVal? (pyStrip kB)
      (convertedPairs l2
        ++ (pyStrip kB, (convert (pyStrip kB) (pyStrip rawB)).getD (HVal.s ""))
        :: convertedPairs l3)
      = some ((convert (pyStrip kB) (pyStrip rawB)).getD (HVal.s "")) := by
    rw [lastVal?_append, lastVal?_cons, hl3, if_pos rfl]
  have hfull : lastVal? (pyStrip kB) (convertedPairs kvs)
      = some ((convert (pyStrip kB) (pyStrip rawB)).getD (HVal.s "")) := by
    rw [hcp, lastVal?_append, lastVal?_cons, hl2part]
  have hpart1 : (insertAll (convertedPairs kvs) []).lookup (pyStrip kB)
      = convert (pyStrip kB) (pyStrip rawB) := by
    rw [insertAll_nil_lookup, hfull, hw]
    rfl
  have hmiss : ∃ k ∈ HEADERS_keys, k ∉ kvs.map (fun p => pyStrip p.1) := by
    by_contra hcon
    push_neg at hcon
    have hsq : ∀ x ∈ kvs.map (fun p => pyStrip p.1),
        x ∈ l1.map (fun p => pyStrip p.1)
          ++ pyStrip kA :: (l2.map (fun p => pyStrip p.1)
          ++ l3.map (fun p => pyStrip p.1)) := by
      intro x hx
      rw [hsplit] at hx
      simp only [List.map_append, List.map_cons, List.mem_append,
        List.mem_cons] at hx ⊢
      rcases hx with (h | h | h) | h | h
      · exact Or.inl h
      · exact Or.inr (Or.inl h)
      · exact Or.inr (Or.inr (Or.inl h))
      · exact Or.inr (Or.inl (h.trans hA.symm))
      · exact Or.inr (Or.inr (Or.inr h))
    have hcard1 : HEADERS_keys.toFinset
        ⊆ (kvs.map (fun p => pyStrip p.1)).toFinset := by
      intro x hx
      rw [List.mem_toFinset] at hx ⊢
      exact hcon x hx
    have hcard2 : (kvs.map (fun p => pyStrip p.1)).toFinset
        ⊆ (l1.map (fun p => pyStrip p.1)
          ++ pyStrip kA :: (l2.map (fun p => pyStrip p.1)
          ++ l3.map (fun p => pyStrip p.1))).toFinset := by
      intro x hx
      rw [List.mem_toFinset] at hx ⊢
      exact hsq x hx
    have hc1 := Finset.card_le_card hcard1
    have hc2 := Finset.card_le_card hcard2
    have h5 : HEADERS_keys.toFinset.card = 5 := by decide
    have h4 : (l1.map (fun p => pyStrip p.1)
        ++ pyStrip kA :: (l2.map (fun p => pyStrip p.1)
        ++ l3.map (fun p => pyStrip p.1))).toFinset.card
        ≤ l1.length + (1 + (l2.length + l3.length)) := by
      calc (l1.map (fun p => pyStrip p.1)
          ++ pyStrip kA :: (l2.map (fun p => pyStrip p.1)
          ++ l3.map (fun p => pyStrip p.1))).toFinset.card
          ≤ (l1.map (fun p => pyStrip p.1)
            ++ pyStrip kA :: (l2.map (fun p => pyStrip p.1)
            ++ l3.map (fun p => pyStrip p.1))).length := List.toFinset_card_le _
        _ = l1.length + (1 + (l2.length + l3.length)) := by
            simp only [List.length_append, List.length_cons, List.length_map]
            omega
    have hlen5 : l1.length + (l2.length + (l3.length + 1) + 1) = 5 := by
      have h := hlen
      rw [hsplit] at h
      simpa [List.length_append, HEADER_LINES] using h
    omega
  exact ⟨hpart1, head_to_context_wf_missing path kvs hwf hmiss⟩

/-- Witness for C9: in `C9_kvs` the key `Title` occurs first and last; the
dict keeps the last value `B` and the abort reports the absent `Template`. -/
theorem duplicate_key_C9_witness :
    ((insertAll (convertedPairs C9_kvs) []).lookup (pyStrip "Title")
        = convert (pyStrip "Title") (pyStrip "B")
    ∧ ∃ missing, head_to_context (C9_kvs.map mkLine) "src/p.md"
        = .fatal (.missingHeaderFields "src/p.md" missing)
      ∧ missing ≠ []
      ∧ (∀ k, k ∈ missing ↔ k ∈ HEADERS_keys
          ∧ k ∉ C9_kvs.map (fun p => pyStrip p.1))) :=
  duplicate_key_C9 "src/p.md" C9_kvs []
    [("MetaDescription", "d"), ("DatePublished", "2024-06-01"), ("IsDraft", "0")]
    [] "Title" "Title" "A" "B" (by decide) (by decide) (by decide) (by decide)
    (by decide)

/-! ### C3: a missing per-document template aborts, but the message shows `False` -/

/-- C3 (code bug): with `nonexistent.jinja2` absent from the template
directory, the run aborts fatally and no output file is written for the
document — but the logged message interpolates `tpl`, the boolean result of
`.exists()` bound by the walrus operator, so it reads
`Template False does not exists.` and does not name the missing template. -/
theorem missing_template_C3 :
    run id ["index.jinja2"] [C3_doc] = .fatalExit [] (.templateMissing "False")
    ∧ FatalErr.templateMissing "False"
        ≠ FatalErr.templateMissing "nonexistent.jinja2" := by
  constructor
  · decide
  · decide

/-! ### C6: fewer than five lines aborts before any header parsing -/

/-- C6: a source document providing fewer than five lines makes the
per-document loop abort fatally with the error naming that file (the
caught `StopIteration`), whatever those lines contain and whatever documents
follow; placed first, the whole run aborts with no file written.  No header
parsing is attempted: the outcome carries no trace of the lines' contents. -/
theorem short_header_C6 (md : String → String) (templates : List String)
    (d : Doc) (docs : List Doc) (w : List OutFile) (r : List RenderRecord)
    (h : d.lines.length < HEADER_LINES) :
    processDocs md templates (d :: docs) w r = .fatal w (.notAllHeader d.path)
    ∧ run md templates (d :: docs) = .fatalExit [] (.notAllHeader d.path) := by
  have hp : ∀ (w0 : List OutFile) (r0 : List RenderRecord),
      processDocs md templates (d :: docs) w0 r0
        = .fatal w0 (.notAllHeader d.path) := by
    intro w0 r0
    simp only [processDocs]
    rw [if_pos h]
  refine ⟨hp w r, ?_⟩
  unfold run
  rw [hp [] []]

/-- Witness for C6: a two-line document aborts naming its path. -/
theorem short_header_C6_witness :
    processDocs id ["index.jinja2"]
        [⟨"src/s.md", "s", ["Title: A", "IsDraft: 0"]⟩] [] []
      = .fatal [] (.notAllHeader "src/s.md")
    ∧ run id ["index.jinja2"] [⟨"src/s.md", "s", ["Title: A", "IsDraft: 0"]⟩]
      = .fatalExit [] (.notAllHeader "src/s.md") :=
  short_header_C6 id ["index.jinja2"] ⟨"src/s.md", "s", ["Title: A", "IsDraft: 0"]⟩
    [] [] [] (by decide)

/-! ### C7: the draft flag never filters a document -/

theorem processDocs_cons_ok (md : String → String) (templates : List String)
    (d : Doc) (docs : List Doc) (w : List OutFile) (r : List RenderRecord)
    (ctx : List (String × HVal))
    (hlen : ¬ d.lines.length < HEADER_LINES)
    (hparse : head_to_context (d.lines.take HEADER_LINES) d.path = .ok ctx)
    (htpl : getStr (dictInsert "PostMarkup" (.s (md (docBody d))) ctx) "Template"
      ∈ templates) :
    processDocs md templates (d :: docs) w r
      = processDocs md templates docs
          (w ++ [⟨d.stem ++ ".html",
            getStr (dictInsert "PostMarkup" (.s (md (docBody d))) ctx) "Template",
            dictInsert "PostMarkup" (.s (md (docBody d))) ctx⟩])
          (r ++ [⟨d.path, d.stem ++ ".html",
            getStr (dictInsert "PostMarkup" (.s (md (docBody d))) ctx) "Title",
            getDate (dictInsert "PostMarkup" (.s (md (docBody d))) ctx),
            getInt (dictInsert "PostMarkup" (.s (md (docBody d))) ctx)⟩]) := by
  simp only [processDocs]
  rw [if_neg hlen, hparse]
  simp only [if_pos htpl]

theorem processDocs_cons_short (md : String → String) (templates : List String)
    (d : Doc) (docs : List Doc) (w : List OutFile) (r : List RenderRecord)
    (h : d.lines.length < HEADER_LINES) :
    processDocs md templates (d :: docs) w r = .fatal w (.notAllHeader d.path) := by
  simp only [processDocs]
  rw [if_pos h]

theorem processDocs_cons_fatal (md : String → String) (templates : List String)
    (d : Doc) (docs : List Doc) (w : List OutFile) (r : List RenderRecord)
    (e : FatalErr) (hlen : ¬ d.lines.length < HEADER_LINES)
    (hparse : head_to_context (d.lines.take HEADER_LINES) d.path = .fatal e) :
    processDocs md templates (d :: docs) w r = .fatal w e := by
  simp only [processDocs]
  rw [if_neg hlen, hparse]

theorem processDocs_cons_exn (md : String → String) (templates : List String)
    (d : Doc) (docs : List Doc) (w : List OutFile) (r : List RenderRecord)
    (e : String) (hlen : ¬ d.lines.length < HEADER_LINES)
    (hparse : head_to_context (d.lines.take HEADER_LINES) d.path = .exn e) :
    processDocs md templates (d :: docs) w r = .exn w e := by
  simp only [processDocs]
  rw [if_neg hlen, hparse]

theorem processDocs_cons_tplMissing (md : String → String) (templates : List String)
    (d : Doc) (docs : List Doc) (w : List OutFile) (r : List RenderRecord)
    (ctx : List (String × HVal)) (hlen : ¬ d.lines.length < HEADER_LINES)
    (hparse : head_to_context (d.lines.take HEADER_LINES) d.path = .ok ctx)
    (htpl : getStr (dictInsert "PostMarkup" (.s (md (docBody d))) ctx) "Template"
      ∉ templates) :
    processDocs md templates (d :: docs) w r
      = .fatal w (.templateMissing "False") := by
  simp only [processDocs]
  rw [if_neg hlen, hparse]
  simp only [if_neg htpl]

theorem processDocs_ok_length (md : String → String) (templates : List String)
    (docs : List Doc) (w0 : List OutFile) (r0 : List RenderRecord)
    (w : List OutFile) (r : List RenderRecord)
    (h : processDocs md templates docs w0 r0 = .ok w r) :
    w.length = w0.length + docs.length ∧ r.length = r0.length + docs.length := by
  induction docs generalizing w0 r0 with
  | nil =>
    have h0 : StepResult.ok w0 r0 = .ok w r := h
    injection h0 with hw hr
    subst hw
    subst hr
    simp
  | cons d rest ih =>
    by_cases hlen : d.lines.length < HEADER_LINES
    · rw [processDocs_cons_short md templates d rest w0 r0 hlen] at h
      exact absurd h (by simp)
    · cases hh : head_to_context (d.lines.take HEADER_LINES) d.path with
      | fatal e =>
        rw [processDocs_cons_fatal md templates d rest w0 r0 e hlen hh] at h
        exact absurd h (by simp)
      | exn e =>
        rw [processDocs_cons_exn md templates d rest w0 r0 e hlen hh] at h
        exact absurd h (by simp)
      | ok ctx =>
        by_cases htpl : getStr (dictInsert "PostMarkup"
            (HVal.s (md (docBody d))) ctx) "Template" ∈ templates
        · rw [processDocs_cons_ok md templates d rest w0 r0 ctx hlen hh htpl] at h
          have hlen2 := ih _ _ h
          simp only [List.length_append, List.length_cons, List.length_nil] at hlen2 ⊢
          omega
        · rw [processDocs_cons_tplMissing md templates d rest w0 r0 ctx hlen hh htpl] at h
          exact absurd h (by simp)

theorem head_to_context_canonical (path t tp m dr ir : String) (dt : Nat) (n : Int)
    (hdt : dateParse (pyStrip dr) = some dt) (hn : pyInt (pyStrip ir) = some n) :
    head_to_context [mkLine ("Title", t), mkLine ("Template", tp),
      mkLine ("MetaDescription", m), mkLine ("DatePublished", dr),
      mkLine ("IsDraft", ir)] path
      = .ok [("Title", .s (pyStrip t)), ("Template", .s (pyStrip tp)),
             ("MetaDescription", .s (pyStrip m)), ("DatePublished", .date dt),
             ("IsDraft", .i n)] := by
  have hT : pyStrip "Title" = "Title" := by decide
  have hTp : pyStrip "Template" = "Template" := by decide
  have hM : pyStrip "MetaDescription" = "MetaDescription" := by decide
  have hD : pyStrip "DatePublished" = "DatePublished" := by decide
  have hI : pyStrip "IsDraft" = "IsDraft" := by decide
  have hwf : ∀ p ∈ ([("Title", t), ("Template", tp), ("MetaDescription", m),
      ("DatePublished", dr), ("IsDraft", ir)] : List (String × String)), wfPair p := by
    intro p hp
    simp only [List.mem_cons, List.not_mem_nil, or_false] at hp
    rcases hp with rfl | rfl | rfl | rfl | rfl
    · exact ⟨(by decide : ':' ∉ "Title".data),
        (by decide : pyStrip "Title" ∈ HEADERS_keys), by simp [hT, convert]⟩
    · exact ⟨(by decide : ':' ∉ "Template".data),
        (by decide : pyStrip "Template" ∈ HEADERS_keys), by simp [hTp, convert]⟩
    · exact ⟨(by decide : ':' ∉ "MetaDescription".data),
        (by decide : pyStrip "MetaDescription" ∈ HEADERS_keys), by simp [hM, convert]⟩
    · exact ⟨(by decide : ':' ∉ "DatePublished".data),
        (by decide : pyStrip "DatePublished" ∈ HEADERS_keys), by simp [hD, convert, hdt]⟩
    · exact ⟨(by decide : ':' ∉ "IsDraft".data),
        (by decide : pyStrip "IsDraft" ∈ HEADERS_keys), by simp [hI, convert, hn]⟩
  have happ := head_to_context_go_append path
    [("Title", t), ("Template", tp), ("MetaDescription", m),
     ("DatePublished", dr), ("IsDraft", ir)] [] [] hwf
  rw [List.append_nil] at happ
  have hctx : insertAll (convertedPairs
      [("Title", t), ("Template", tp), ("MetaDescription", m),
       ("DatePublished", dr), ("IsDraft", ir)]) []
      = [("Title", .s (pyStrip t)), ("Template", .s (pyStrip tp)),
         ("MetaDescription", .s (pyStrip m)), ("DatePublished", .date dt),
         ("IsDraft", .i n)] := by
    simp [convertedPairs, insertAll, dictInsert, convert, hT, hTp, hM, hD, hI,
      hdt, hn]
  show head_to_context_go path
    (List.map mkLine [("Title", t), ("Template", tp), ("MetaDescription", m),
     ("DatePublished", dr), ("IsDraft", ir)]) [] = _
  rw [happ, hctx]
  exact head_to_context_go_nil_ok path _ (by
    intro k hk
    fin_cases hk <;> simp [lookup_cons])

/-- C7: the draft flag is collected but never filters.  (i) Whenever `run`
succeeds, every source document yields exactly one written output file and
one index record.  (ii) A single otherwise-valid document whose `IsDraft`
value parses to an arbitrary integer `n` — any value, not just 0/1 — is
rendered and indexed, its record carrying that `n`. -/
theorem no_draft_filter_C7 :
    (∀ (md : String → String) (templates : List String) (docs : List Doc)
        (w : List OutFile) (idx : List RenderRecord),
      run md templates docs = .success w idx →
        w.length = docs.length ∧ idx.length = docs.length)
    ∧ (∀ (md : String → String) (templates : List String)
        (path stem t tp m dr ir body : String) (dt : Nat) (n : Int),
      dateParse (pyStrip dr) = some dt → pyInt (pyStrip ir) = some n →
      pyStrip tp ∈ templates → "index.jinja2" ∈ templates →
      ∃ out record, run md templates
          [⟨path, stem, [mkLine ("Title", t), mkLine ("Template", tp),
            mkLine ("MetaDescription", m), mkLine ("DatePublished", dr),
            mkLine ("IsDraft", ir), body]⟩]
        = .success [out] [record]
        ∧ record.IsDraft = n ∧ record.DatePublished = dt
        ∧ record.Title = pyStrip t ∧ record.InPath = path) := by
  constructor
  · intro md templates docs w idx h
    unfold run at h
    split at h
    next w0 e heq => exact absurd h (by simp)
    next w0 e heq => exact absurd h (by simp)
    next w0 records heq =>
      split at h
      next hidx =>
        injection h with hw hidx2
        subst hw
        obtain ⟨hwlen, hrlen⟩ := processDocs_ok_length md templates docs [] [] _ _ heq
        refine ⟨by simpa using hwlen, ?_⟩
        rw [← hidx2]
        have hlen : (pySortedDesc RenderRecord.DatePublished records).length
            = records.length := (pySortedDesc_perm _ _).length_eq
        rw [hlen]
        simpa using hrlen
      next hidx => exact absurd h (by simp)
  · intro md templates path stem t tp m dr ir body dt n hdt hn htp hidx
    have hhead := head_to_context_canonical path t tp m dr ir dt n hdt hn
    have hts : getStr (dictInsert "PostMarkup"
        (.s (md (docBody ⟨path, stem, [mkLine ("Title", t), mkLine ("Template", tp),
          mkLine ("MetaDescription", m), mkLine ("DatePublished", dr),
          mkLine ("IsDraft", ir), body]⟩)))
        [("Title", .s (pyStrip t)), ("Template", .s (pyStrip tp)),
         ("MetaDescription", .s (pyStrip m)), ("DatePublished", .date dt),
         ("IsDraft", .i n)]) "Template" = pyStrip tp := by
      simp [getStr, dictInsert, lookup_cons]
    have htt : getStr (dictInsert "PostMarkup"
        (.s (md (docBody ⟨path, stem, [mkLine ("Title", t), mkLine ("Template", tp),
          mkLine ("MetaDescription", m), mkLine ("DatePublished", dr),
          mkLine ("IsDraft", ir), body]⟩)))
        [("Title", .s (pyStrip t)), ("Template", .s (pyStrip tp)),
         ("MetaDescription", .s (pyStrip m)), ("DatePublished", .date dt),
         ("IsDraft", .i n)]) "Title" = pyStrip t := by
      simp [getStr, dictInsert, lookup_cons]
    have hdate : getDate (dictInsert "PostMarkup"
        (.s (md (docBody ⟨path, stem, [mkLine ("Title", t), mkLine ("Template", tp),
          mkLine ("MetaDescription", m), mkLine ("DatePublished", dr),
          mkLine ("IsDraft", ir), body]⟩)))
        [("Title", .s (pyStrip t)), ("Template", .s (pyStrip tp)),
         ("MetaDescription", .s (pyStrip m)), ("DatePublished", .date dt),
         ("IsDraft", .i n)]) = dt := by
      simp [getDate, dictInsert, lookup_cons]
    have hint : getInt (dictInsert "PostMarkup"
        (.s (md (docBody ⟨path, stem, [mkLine ("Title", t), mkLine ("Template", tp),
          mkLine ("MetaDescription", m), mkLine ("DatePublished", dr),
          mkLine ("IsDraft", ir), body]⟩)))
        [("Title", .s (pyStrip t)), ("Template", .s (pyStrip tp)),
         ("MetaDescription", .s (pyStrip m)), ("DatePublished", .date dt),
         ("IsDraft", .i n)]) = n := by
      simp [getInt, dictInsert, lookup_cons]
    have hstep := processDocs_cons_ok md templates
      ⟨path, stem, [mkLine ("Title", t), mkLine ("Template", tp),
        mkLine ("MetaDescription", m), mkLine ("DatePublished", dr),
        mkLine ("IsDraft", ir), body]⟩ [] [] []
      [("Title", .s (pyStrip t)), ("Template", .s (pyStrip tp)),
       ("MetaDescription", .s (pyStrip m)), ("DatePublished", .date dt),
       ("IsDraft", .i n)]
      (by show ¬ (6 : Nat) < HEADER_LINES; decide) hhead (by rw [hts]; exact htp)
    rw [hts, htt, hdate, hint] at hstep
    simp only [List.nil_append] at hstep
    refine ⟨⟨stem ++ ".html", pyStrip tp,
      dictInsert "PostMarkup"
        (.s (md (docBody ⟨path, stem, [mkLine ("Title", t), mkLine ("Template", tp),
          mkLine ("MetaDescription", m), mkLine ("DatePublished", dr),
          mkLine ("IsDraft", ir), body]⟩)))
        [("Title", .s (pyStrip t)), ("Template", .s (pyStrip tp)),
         ("MetaDescription", .s (pyStrip m)), ("DatePublished", .date dt),
         ("IsDraft", .i n)]⟩,
      ⟨path, stem ++ ".html", pyStrip t, dt, n⟩, ?_, rfl, rfl, rfl, rfl⟩
    unfold run
    rw [hstep]
    show (if "index.jinja2" ∈ templates then _ else _) = _
    rw [if_pos hidx]
    rfl

/-- Witness for C7: part (i) applied to a concrete successful two-document
run; part (ii) applied with the out-of-convention draft value 7, which is
still rendered and indexed. -/
theorem no_draft_filter_C7_witness :
    (run_C1_written.length = [exampleDocA, exampleDocB].length
      ∧ run_C1_index.length = [exampleDocA, exampleDocB].length)
    ∧ (∃ out record, run id ["post.jinja2", "index.jinja2"]
          [⟨"src/p.md", "p", [mkLine ("Title", "T"), mkLine ("Template", "post.jinja2"),
            mkLine ("MetaDescription", "d"), mkLine ("DatePublished", "2024-06-01"),
            mkLine ("IsDraft", "7"), "body"]⟩]
        = .success [out] [record]
        ∧ record.IsDraft = 7 ∧ record.DatePublished = 20240601
        ∧ record.Title = pyStrip "T" ∧ record.InPath = "src/p.md") :=
  ⟨no_draft_filter_C7.1 id ["post.jinja2", "index.jinja2"] [exampleDocA, exampleDocB]
      run_C1_written run_C1_index (by decide),
   no_draft_filter_C7.2 id ["post.jinja2", "index.jinja2"] "src/p.md" "p" "T"
      "post.jinja2" "d" "2024-06-01" "7" "body" 20240601 7
      (by decide) (by decide) (by decide) (by decide)⟩

/-! ### C10: a missing index template fails only after all documents are written -/

/-- C10: when `index.jinja2` is absent from the template directory, and the
per-document loop completes having written `w`, the run ends in the
uncaught-exception outcome (jinja2's `TemplateNotFound`), still carrying
every per-document output file already written — it does not take the
logged fatal-error-and-explicit-exit path used for per-document template
misses. -/
theorem missing_index_template_C10 (md : String → String)
    (templates : List String) (docs : List Doc) (w : List OutFile)
    (records : List RenderRecord)
    (hok : processDocs md templates docs [] [] = .ok w records)
    (hmiss : "index.jinja2" ∉ templates) :
    run md templates docs = .uncaught w "TemplateNotFound"
    ∧ ∀ w2 e, run md templates docs ≠ .fatalExit w2 e := by
  have hrun : run md templates docs = .uncaught w "TemplateNotFound" := by
    unfold run
    rw [hok]
    show (if "index.jinja2" ∈ templates then _ else _) = _
    rw [if_neg hmiss]
  refine ⟨hrun, ?_⟩
  intro w2 e h
  rw [hrun] at h
  exact RunOutcome.noConfusion h

/-- Witness for C10: a one-document run with only the post template present
writes the post, then fails uncaught on the absent index template. -/
theorem missing_index_template_C10_witness :
    run id ["post.jinja2"] [exampleDocA] = .uncaught run_C10_written "TemplateNotFound"
    ∧ ∀ w2 e, run id ["post.jinja2"] [exampleDocA] ≠ .fatalExit w2 e :=
  missing_index_template_C10 id ["post.jinja2"] [exampleDocA] run_C10_written
    [⟨"src/a.md", "a.html", "A", 20240101, 0⟩] (by decide) (by decide)

end SiteGen
